import Mathlib

/-!
Verification of the memdb database service layer: a shallow embedding of the
SQL access classifier (sql.mts), the value codec (util.mts), the Bun query
observer and connection registry (bun.mts), and the client adapter (api.mts),
together with theorems settling the specification claims.

Machine integers are modelled as Nat/Int; JavaScript objects iterated with
for-in are modelled as association lists in iteration order; fallible code
returns Except.
-/

namespace Memdb

/-! ### Access levels and query types (api.mts / sql.mts) -/

/-- Enum `DatabaseAccessLevel` from api.mts (ANONYMOUS = 0, READ_ONLY = 1,
READ_WRITE = 2, ADMIN = 3). -/
inductive DatabaseAccessLevel
  | ANONYMOUS
  | READ_ONLY
  | READ_WRITE
  | ADMIN
  deriving DecidableEq, Repr

/-- Numeric value of the `DatabaseAccessLevel` enum member. -/
def DatabaseAccessLevel.toNat : DatabaseAccessLevel → Nat
  | .ANONYMOUS => 0
  | .READ_ONLY => 1
  | .READ_WRITE => 2
  | .ADMIN => 3

/-- Enum `QueryType` from sql.mts (DDL = 3, DML = 2, DQL = 1). -/
inductive QueryType
  | DDL
  | DML
  | DQL
  deriving DecidableEq, Repr

/-- Numeric value of the `QueryType` enum member. -/
def QueryType.toNat : QueryType → Nat
  | .DDL => 3
  | .DML => 2
  | .DQL => 1

/-- One statement parsed from a (potentially compound) SQL query
(`QueryStatement` in sql.mts). The `ast` field is omitted: it is opaque to
every function under verification, which only reads `type`. -/
structure QueryStatement where
  type : QueryType
  sql : String
  deriving DecidableEq, Repr

/-- `QueryInfo` from sql.mts: the statements declared within one query. -/
structure QueryInfo where
  statements : List QueryStatement
  deriving DecidableEq, Repr

/-- `requisiteAccessForQueryType` from sql.mts. -/
def requisiteAccessForQueryType : QueryType → DatabaseAccessLevel
  | .DDL => .ADMIN
  | .DML => .READ_WRITE
  | .DQL => .READ_ONLY

/-- JavaScript `Math.max` folded over a list: `none` stands for the value
`-Infinity` that `Math.max()` yields on an empty argument list. -/
def mathMax (acc : Option Nat) (x : Nat) : Option Nat :=
  match acc with
  | none => some x
  | some a => some (max a x)

/-- `maximalAccessLevel` from sql.mts:
`Math.max(...query.statements.map((stmt) => requisiteAccessForQueryType(stmt.type)))`. -/
def maximalAccessLevel (q : QueryInfo) : Option Nat :=
  (q.statements.map fun s => (requisiteAccessForQueryType s.type).toNat).foldl mathMax none

/-- `checkQueryAccess` from sql.mts: `maximalAccessLevel(query) <= level`
(`-Infinity <= level` is true). -/
def checkQueryAccess (q : QueryInfo) (level : DatabaseAccessLevel) : Bool :=
  match maximalAccessLevel q with
  | none => true
  | some m => decide (m ≤ level.toNat)

/-- Modelled from the spec: the covering step of the declared total order
`ANONYMOUS < READ_ONLY < READ_WRITE < ADMIN`. -/
inductive AccessBelow : DatabaseAccessLevel → DatabaseAccessLevel → Prop where
  | anon_ro : AccessBelow .ANONYMOUS .READ_ONLY
  | ro_rw : AccessBelow .READ_ONLY .READ_WRITE
  | rw_admin : AccessBelow .READ_WRITE .ADMIN

/-- Modelled from the spec: the total order on access levels, as the
reflexive-transitive closure of the declared chain. -/
def specAccessLE (a b : DatabaseAccessLevel) : Prop :=
  Relation.TransGen AccessBelow a b ∨ a = b

/-! ### Protocol value model (schema of `model/api/v1/db` plus protobuf WKT) -/

/-- Enum `ColumnPrimitiveType`; `UNSPECIFIED` is the zero (falsy) member. -/
inductive ColumnPrimitiveType
  | UNSPECIFIED
  | TEXT
  | INTEGER
  | REAL
  | BLOB
  deriving DecidableEq, Repr

/-- JavaScript truthiness of a `ColumnPrimitiveType` enum value: every member
but the zero member `UNSPECIFIED` is truthy. -/
def ColumnPrimitiveType.truthy : ColumnPrimitiveType → Bool
  | .UNSPECIFIED => false
  | _ => true

/-- Kind union of the protobuf well-known `Value` (util.mts only builds the
null, number, string and bool cases). JavaScript numbers are carried as Int:
no verified function depends on fractional or overflow behaviour. -/
inductive ValueKind
  | nullValue
  | numberValue (n : Int)
  | stringValue (s : String)
  | boolValue (b : Bool)
  deriving DecidableEq, Repr

/-- Protobuf well-known `Value` message. -/
structure GoogleValue where
  kind : ValueKind
  deriving DecidableEq, Repr

/-- One-of `data` of the `DatabaseValue` message:
`value | blob | empty | real`. -/
inductive DatabaseValueData
  | value (v : GoogleValue)
  | blob (bytes : List Nat)
  | empty
  | real (r : Int)
  deriving DecidableEq, Repr

/-- `DatabaseValue` message. -/
structure DatabaseValue where
  data : DatabaseValueData
  deriving DecidableEq, Repr

/-- `DatabaseColumn` message: name, ordinal and primitive type. A `none` name
models the unset / empty-string proto field. -/
structure DatabaseColumn where
  name : Option String
  ordinal : Nat
  type : ColumnPrimitiveType
  deriving DecidableEq, Repr

/-- `DatabaseRow` message: owning table identity, row ordinal, cell values. -/
structure DatabaseRow where
  table : Nat
  ordinal : Nat
  value : List DatabaseValue
  deriving DecidableEq, Repr

/-- `DatabaseTable` message: optional name, response-local identity, columns. -/
structure DatabaseTable where
  name : Option String
  identity : Nat
  column : List DatabaseColumn
  deriving DecidableEq, Repr

/-! ### Engine-native cells and the value codec (util.mts) -/

/-- `RawPrimitiveValue` from util.mts: the union of JavaScript carriers a
compliant query can return (string, number, bigint, Uint8Array, boolean,
null, undefined). Numbers and bigints are carried as Int (see `ValueKind`). -/
inductive Cell
  | str (s : String)
  | num (n : Int)
  | bigint (n : Int)
  | blob (bytes : List Nat)
  | boolean (b : Bool)
  | null
  | undefined
  deriving DecidableEq, Repr

/-- `ColumnSpec` from util.mts: `{index, name?, type?}`. -/
structure ColumnSpec where
  index : Nat
  name : Option String := none
  type : Option ColumnPrimitiveType := none
  deriving DecidableEq, Repr

/-- JavaScript `||` on an optional string: an absent or empty string is falsy. -/
def jsStrOrNone (s : Option String) : Option String :=
  match s with
  | none => none
  | some v => if v = "" then none else some v

/-- Standard base64 alphabet. -/
def base64Alphabet : String :=
  "ABCDEFGHIJKLMNOPQRSTUVWXYZabcdefghijklmnopqrstuvwxyz0123456789+/"

/-- Character of the base64 alphabet at a 6-bit index. -/
def base64Char (i : Nat) : Char :=
  base64Alphabet.toList.getD (i % 64) (Char.ofNat 65)

/-- Base64 encoding of a byte sequence
(`Buffer.from(cell).toString("base64")` in util.mts). -/
def base64Encode : List Nat → String
  | [] => ""
  | [a] =>
      String.mk [base64Char (a / 4), base64Char (a % 4 * 16)] ++ "=="
  | [a, b] =>
      String.mk [base64Char (a / 4), base64Char (a % 4 * 16 + b / 16),
        base64Char (b % 16 * 4)] ++ "="
  | a :: b :: c :: rest =>
      String.mk [base64Char (a / 4), base64Char (a % 4 * 16 + b / 16),
        base64Char (b % 16 * 4 + c / 64), base64Char (c % 64)] ++ base64Encode rest

/-- JavaScript template stringification of a cell value, as in the TEXT branch
of `decodeCell` (the null case never reaches it). -/
def Cell.jsString : Cell → String
  | .str s => s
  | .num n => toString n
  | .bigint n => toString n
  | .blob bytes => String.intercalate "," (bytes.map toString)
  | .boolean b => if b then "true" else "false"
  | .null => "null"
  | .undefined => "undefined"

/-- `decodeCell` from util.mts: coerce an engine-native cell into a protobuf
`Value`, guided by the column type when one is declared (truthy); thrown
errors are returned as `Except.error` with the message. -/
def decodeCell (column : ColumnSpec) (cell : Cell) : Except String GoogleValue :=
  if cell = Cell.null then
    .ok ⟨.nullValue⟩
  else
    -- `if (type)`: the switch runs only for a present, truthy (non-zero) type;
    -- an absent type and the falsy UNSPECIFIED member both take the inference
    -- path, so the unreachable switch default is not represented.
    match column.type, cell with
    | some ColumnPrimitiveType.TEXT, c => .ok ⟨.stringValue c.jsString⟩
    | some .REAL, .num n => .ok ⟨.numberValue n⟩
    | some .REAL, .bigint n => .ok ⟨.numberValue n⟩
    | some .REAL, _ =>
        .error "Failed to safely coerce INTEGER column value to number"
    | some .INTEGER, .num n => .ok ⟨.numberValue n⟩
    | some .INTEGER, .bigint n => .ok ⟨.numberValue n⟩
    | some .INTEGER, _ =>
        .error "Failed to safely coerce INTEGER column value to number"
    | some .BLOB, .blob bytes => .ok ⟨.stringValue (base64Encode bytes)⟩
    | some .BLOB, _ =>
        .error "Failed to safely coerce BLOB column value to Uint8Array"
    | some .UNSPECIFIED, .str s => .ok ⟨.stringValue s⟩
    | none, .str s => .ok ⟨.stringValue s⟩
    | some .UNSPECIFIED, .num n => .ok ⟨.numberValue n⟩
    | none, .num n => .ok ⟨.numberValue n⟩
    | some .UNSPECIFIED, _ =>
        .error "Unsupported cell type, or unhandled type coercion"
    | none, _ =>
        .error "Unsupported cell type, or unhandled type coercion"

/-- `array.map((x, index) => f(index, x))`: map with the element index. -/
def mapWithIndex (f : Nat → α → β) : Nat → List α → List β
  | _, [] => []
  | i, a :: rest => f i a :: mapWithIndex f (i + 1) rest

/-- `createTableInfo` from util.mts. `name: table || undefined` makes an empty
name unset; each column gets its position as ordinal and
`column.type || UNSPECIFIED` as type. -/
def createTableInfo (identity : Nat) (table : Option String)
    (columns : List ColumnSpec) : DatabaseTable :=
  { name := jsStrOrNone table
    identity := identity
    column := mapWithIndex (fun index column =>
      { name := column.name
        ordinal := index
        type := column.type.getD ColumnPrimitiveType.UNSPECIFIED }) 0 columns }

/-- `RawRowData` from util.mts: a record of raw primitive values (modelled as
an association list in property-insertion order) or an array of them. -/
inductive RawRowData
  | obj (entries : List (String × Cell))
  | arr (cells : List Cell)
  deriving DecidableEq, Repr

/-- Entry list of a raw row, as produced at the head of `decodeRow`:
array cells get a `null` name, object properties keep theirs. -/
def rawRowEntries : RawRowData → List (Option String × Cell)
  | .arr cells => cells.map (fun cell => (none, cell))
  | .obj entries => entries.map (fun e => (some e.1, e.2))

/-- Body of the indexed map inside `decodeRow`: decode every entry of the row
through `decodeCell`, wiring in the column spec at the same index; the first
thrown decode error aborts. -/
def decodeRowValues (columns : List ColumnSpec) (index : Nat) :
    List (Option String × Cell) → Except String (List DatabaseValue)
  | [] => .ok []
  | (name, value) :: rest => do
      let column := columns[index]?
      -- `column?.name || name`, then `columnName || undefined`: both `||`s
      -- treat an absent or empty string as falsy.
      let columnName := (jsStrOrNone (column.bind fun c => c.name)).orElse fun _ => name
      let columnType := (column.bind fun c => c.type).getD .UNSPECIFIED
      let v ← decodeCell { index := index, name := jsStrOrNone columnName, type := some columnType } value
      let tail ← decodeRowValues columns (index + 1) rest
      .ok (⟨.value v⟩ :: tail)

/-- `decodeRow` from util.mts: decode raw row data into a `DatabaseRow`. -/
def decodeRow (table : Nat) (ordinal : Nat) (row : RawRowData)
    (columns : List ColumnSpec) : Except String DatabaseRow := do
  let values ← decodeRowValues columns 0 (rawRowEntries row)
  .ok { table := table, ordinal := ordinal, value := values }

/-! ### Errors and query results (connectrpc codes, api.mts result union) -/

/-- connectrpc `Code.InvalidArgument`. -/
def codeInvalidArgument : Nat := 3
/-- connectrpc `Code.NotFound`. -/
def codeNotFound : Nat := 5
/-- connectrpc `Code.FailedPrecondition`. -/
def codeFailedPrecondition : Nat := 9
/-- connectrpc `Code.Unimplemented`. -/
def codeUnimplemented : Nat := 12
/-- connectrpc `Code.Internal`. -/
def codeInternal : Nat := 13
/-- connectrpc `Code.Unknown`, the default code of `new ConnectError(msg)`. -/
def codeUnknown : Nat := 2

/-- A thrown JavaScript error: either a `ConnectError` carrying a structured
code, or a plain `Error`. The message is the constructor argument. -/
inductive JSError
  | connect (msg : String) (code : Nat)
  | plain (msg : String)
  deriving DecidableEq, Repr

/-- The `message` property of a thrown error. -/
def JSError.message : JSError → String
  | .connect m _ => m
  | .plain m => m

/-- `err instanceof ConnectError ? err.code.toString() : "internal"`
(a numeric TypeScript enum stringifies to its decimal value). -/
def JSError.codeString : JSError → String
  | .connect _ c => toString c
  | .plain _ => "internal"

/-- `err.toString()` of a JavaScript error. -/
def JSError.jsToString : JSError → String
  | .connect m _ => "ConnectError: " ++ m
  | .plain m => "Error: " ++ m

/-- `err.message || err.toString()` (an empty message is falsy). -/
def JSError.messageOrString (e : JSError) : String :=
  if e.message = "" then e.jsToString else e.message

/-- `QueryResultMode` enum from api.mts. -/
inductive QueryResultMode
  | Single
  | Rows
  | Mutation
  | Empty
  | Error
  deriving DecidableEq, Repr

/-- `AnyQueryResult` union from api.mts. Mutation counts are Int so that the
adapter-decoded wire value lands in the same type. -/
inductive AnyQueryResult
  | single (value : Cell)
  | rows (tables : List DatabaseTable) (rows : List DatabaseRow)
  | mutation (count : Int)
  | empty
  | error (error : String) (code : String)
  deriving DecidableEq, Repr

/-- `mode` discriminator of an `AnyQueryResult`. -/
def AnyQueryResult.mode : AnyQueryResult → QueryResultMode
  | .single _ => .Single
  | .rows _ _ => .Rows
  | .mutation _ => .Mutation
  | .empty => .Empty
  | .error _ _ => .Error

/-! ### The Bun query observer (`BunQueryObserver.apply` in bun.mts)

The embedded engine is opaque (spec section 1); one `apply` run touches it
through `db.exec` (statement path) or `db.prepare` + `stmt.all` +
`stmt.columnNames` (query path), so an `EngineBehavior` records the outcome
of those capabilities for the query at hand. A row object materialized by
`stmt.all()` is an association list of property names to cells. -/

/-- A row object returned by `stmt.all()`. -/
abbrev RowObj := List (String × Cell)

/-- Outcomes of the engine calls a single `apply` run can make. -/
structure EngineBehavior where
  /-- `db.exec(queryStr).changes`, or the thrown error message. -/
  execResult : Except String Nat
  /-- Whether `db.prepare(queryStr)` succeeds. -/
  prepareOk : Bool
  /-- `stmt.columnNames` and `stmt.all()`, or the thrown error message. -/
  allResult : Except String (List String × List RowObj)
  deriving Repr

/-- Callbacks registered on a `GenericQueryObserver`, named by opaque ids in
registration order. -/
structure ObserverCallbacks where
  onRowCbks : List Nat := []
  onEndCbks : List Nat := []
  onErrorCbks : List Nat := []
  deriving DecidableEq, Repr

/-- Callback dispatches performed by one `apply` run: which callback fired,
with which payload. -/
structure DispatchLog where
  rowEvents : List (Nat × DatabaseRow) := []
  endEvents : List (Nat × AnyQueryResult) := []
  errorEvents : List (Nat × JSError) := []
  deriving DecidableEq, Repr

/-- `columns.map((name, index) => ({ name, index }))` in `apply`. -/
def columnSpecsOf (columns : List String) : List ColumnSpec :=
  mapWithIndex (fun index name => { index := index, name := some name }) 0 columns

/-- Step 1.3 of `apply`: the single-result detection. Single iff the column
list and the row list both have length 1, the sole row object has exactly one
property whose name equals the sole column name, and its cell is not
undefined; the detected value is that cell. -/
def bunDetectSingle : List String → List RowObj → Option Cell
  | [c], [[(k, v)]] =>
      if k = c then (if v = Cell.undefined then none else some v) else none
  | _, _ => none

/-- Step 1.4 of `apply`: decode each row object through `decodeRow` with table
identity 1, pushing the decoded row and firing every on-row callback, in row
order; a decode failure throws `ConnectError("Failed to decode row", Internal)`
and keeps the events already fired. -/
def decodeLoop (columnSpecs : List ColumnSpec) (onRowCbks : List Nat) (i : Nat) :
    List RowObj → Except JSError (List DatabaseRow) × List (Nat × DatabaseRow)
  | [] => (.ok [], [])
  | row :: rest =>
      match decodeRow 1 i (.obj row) columnSpecs with
      | .error _ => (.error (.connect "Failed to decode row" codeInternal), [])
      | .ok decoded =>
          let next := decodeLoop columnSpecs onRowCbks (i + 1) rest
          (match next.1 with
            | .ok tail => .ok (decoded :: tail)
            | .error e => .error e,
           onRowCbks.map (fun c => (c, decoded)) ++ next.2)

/-- The `try` block of `BunQueryObserver.apply`: the terminal result or thrown
error, along with the on-row dispatches that happened inside the block. -/
def bunApplyTry (statement : Bool) (engine : EngineBehavior)
    (onRowCbks : List Nat) :
    Except JSError AnyQueryResult × List (Nat × DatabaseRow) :=
  if statement then
    -- 1.1: `db.exec`; a truthy (non-zero) change count is a mutation.
    match engine.execResult with
    | .error m => (.error (.plain m), [])
    | .ok changes =>
        if changes = 0 then (.ok .empty, [])
        else (.ok (.mutation changes), [])
  else
    -- 1.2: `compileStatement` wraps a prepare failure as
    -- ConnectError("Invalid or unsupported query", InvalidArgument).
    if engine.prepareOk then
      match engine.allResult with
      | .error m => (.error (.plain m), [])
      | .ok (columns, data) =>
          let columnSpecs := columnSpecsOf columns
          let tableInfo := createTableInfo 1 none columnSpecs
          match bunDetectSingle columns data with
          | some v => (.ok (.single v), [])
          | none =>
              let outcome := decodeLoop columnSpecs onRowCbks 0 data
              (match outcome.1 with
                | .error e => .error e
                | .ok rows => .ok (.rows [tableInfo] rows), outcome.2)
    else
      (.error (.connect "Invalid or unsupported query" codeInvalidArgument), [])

/-- `BunQueryObserver.apply` / `recv`: validate the query spec, run the try
block, and dispatch terminal callbacks. A thrown error escaping `apply` is
`Except.error`; a returned result carries its dispatch log. The guard
`if (!result)` after the try block is structurally unreachable and therefore
not represented. -/
def bunApply (spec : Option String) (statement : Bool) (engine : EngineBehavior)
    (cbks : ObserverCallbacks) : Except JSError (AnyQueryResult × DispatchLog) :=
  match spec with
  | none => .error (.connect "Invalid query" codeInvalidArgument)
  | some queryStr =>
      -- `!queryStr` also rejects an empty string (falsy).
      if queryStr = "" then .error (.connect "Invalid query" codeInvalidArgument)
      else
        match bunApplyTry statement engine cbks.onRowCbks with
        | (.ok result, rowEvents) =>
            .ok (result,
              { rowEvents := rowEvents
                endEvents := cbks.onEndCbks.map (fun c => (c, result))
                errorEvents := [] })
        | (.error e, rowEvents) =>
            .ok (.error e.messageOrString e.codeString,
              { rowEvents := rowEvents
                endEvents := []
                errorEvents := cbks.onErrorCbks.map (fun c => (c, e)) })

/-! ### Result envelope (`DatabaseResult` wire union, bun.mts / api.mts) -/

/-- The `result` one-of of the wire `DatabaseResult`:
`empty | single | mutation | resultset`. The single payload is
`DatabaseValueResult` whose `value` message field may be unset; the mutation
payload is the `rowsModified` one-of member, unset when absent. -/
inductive WireResultCase
  | empty
  | single (value : Option DatabaseValue)
  | mutation (rowsModified : Option Int)
  | resultset (table : List DatabaseTable) (row : List DatabaseRow)
  deriving DecidableEq, Repr

/-- Wire `DatabaseResult` message: `ok` plus the result one-of. -/
structure WireDatabaseResult where
  ok : Bool
  result : Option WireResultCase
  deriving DecidableEq, Repr

/-- Wire `DatabaseQueryResponse` message. -/
structure DatabaseQueryResponse where
  result : Option WireDatabaseResult
  deriving DecidableEq, Repr

/-- JavaScript `||` on strings, as in the error branch of
`buildQueryResponse`. -/
def jsStrOr (a b : String) : String :=
  if a = "" then b else a

/-- `databaseValueForCell` from bun.mts: wrap a cell through `decodeCell`
(the observer passes `{ index: 0 }`, so the inference path applies); a cell
the codec rejects propagates as a thrown error. -/
def databaseValueForCell (value : Cell) (column : ColumnSpec) :
    Except String DatabaseValue :=
  (decodeCell column value).map fun v => ⟨.value v⟩

/-- `buildQueryResponse` from bun.mts: translate an internal query result to
a wire response. Every constructed envelope sets `ok: true`; an Error-mode
result throws `new ConnectError(...)` (default code Unknown) instead. -/
def buildQueryResponse (result : AnyQueryResult) : Except JSError DatabaseQueryResponse :=
  match result with
  | .empty =>
      .ok ⟨some ⟨true, some .empty⟩⟩
  | .error err code =>
      .error (.connect
        ("Query failed: [code=" ++ jsStrOr code "none" ++ "] " ++ jsStrOr err "no message")
        codeUnknown)
  | .mutation count =>
      .ok ⟨some ⟨true, some (.mutation (some count))⟩⟩
  | .single value =>
      match databaseValueForCell value { index := 0 } with
      | .error m => .error (.plain m)
      | .ok dv => .ok ⟨some ⟨true, some (.single (some dv))⟩⟩
  | .rows tables rows =>
      .ok ⟨some ⟨true, some (.resultset tables rows)⟩⟩

/-! ### Client adapter decoding (`DatabaseClientAdapter.query` in api.mts) -/

/-- The response-processing switch of `DatabaseClientAdapter.query`
(api.mts): translate a wire response into the result union. `Except.error`
models a thrown `Error` with the given message. The switch never reads the
envelope `ok` flag: an unset one-of (as in a wire error envelope) falls
through to the trailing `not yet implemented` throw. For the `nullValue` kind
the code returns `kind.value`, which is the `NullValue.NULL_VALUE` enum, the
number 0. The resultset guard `!multi.row` is never taken: a protobuf
repeated field is always an (always-truthy) array. -/
def adapterDecodeQuery (resp : DatabaseQueryResponse) :
    Except String AnyQueryResult :=
  match resp.result.bind fun r => r.result with
  | some .empty => .ok .empty
  | some (.mutation rowsModified) =>
      -- `value?.result?.value ? Number(...) : 0`: BigInt(0) is falsy.
      .ok (.mutation (match rowsModified with
        | some n => if n = 0 then 0 else n
        | none => 0))
  | some (.single value) =>
      match value with
      | none => .error "Single result is empty (unexpected)"
      | some dv =>
          match dv.data with
          | .value gv =>
              match gv.kind with
              | .boolValue b => .ok (.single (.boolean b))
              | .stringValue s => .ok (.single (.str s))
              | .nullValue => .ok (.single (.num 0))
              | .numberValue n => .ok (.single (.num n))
          | .blob bytes => .ok (.single (.blob bytes))
          | .empty => .ok .empty
          | .real r => .ok (.single (.num r))
  | some (.resultset table row) =>
      .ok (.rows table row)
  | none => .error "not yet implemented (query client recv): undefined"

/-! ### Connection registry (`BunDatabaseDriver` in bun.mts) -/

/-- `ManagedDatabase`: the opaque engine handle is not represented. -/
structure ManagedDatabase where
  id : Nat
  deriving DecidableEq, Repr

/-- `ManagedConnection` from bun.mts. -/
structure ManagedConnection where
  id : Nat
  db : Nat
  active : Bool
  deriving DecidableEq, Repr

/-- `record[key] = value` on a JavaScript object: overwrite in place when the
key exists, append otherwise (enumeration keeps insertion order; connection
and database ids are allocated monotonically, so insertion order coincides
with the ascending numeric for-in order). -/
def jsRecordSet (l : List (α × β)) (k : α) (v : β) [DecidableEq α] : List (α × β) :=
  match l with
  | [] => [(k, v)]
  | (k2, v2) :: rest =>
      if k2 = k then (k2, v) :: rest else (k2, v2) :: jsRecordSet rest k v

/-- Registry state of a `BunDatabaseDriver` instance. -/
structure DriverState where
  nextDbId : Nat := 1
  nextConnectionId : Nat := 1
  databasesBySpec : List (String × ManagedDatabase) := []
  activeDatabases : List (Nat × ManagedDatabase) := []
  activeConnections : List (Nat × ManagedConnection) := []
  deriving DecidableEq, Repr

/-- `specFromName` from bun.mts: only the name `default` is accepted, mapping
to the in-memory spec. -/
def specFromName (name : String) : Except JSError String :=
  if name ≠ "default" then
    .error (.connect "Please use default as the database name" codeInvalidArgument)
  else
    .ok ":memory:"

/-- `BunDatabaseDriver.#spawn`: open an engine handle for the spec and record
it under both indices. -/
def driverSpawn (spec : String) (st : DriverState) : ManagedDatabase × DriverState :=
  let id := st.nextDbId
  let managed : ManagedDatabase := { id := id }
  (managed,
    { st with
        nextDbId := id + 1
        databasesBySpec := jsRecordSet st.databasesBySpec spec managed
        activeDatabases := jsRecordSet st.activeDatabases id managed })

/-- `BunDatabaseDriver.#connect`: resolve or spawn the database for the spec,
then create a fresh active connection. -/
def driverConnect (spec : String) (st : DriverState) : ManagedConnection × DriverState :=
  let (resolved, st1) :=
    match st.databasesBySpec.lookup spec with
    | none => driverSpawn spec st
    | some db => (db, st)
  let id := st1.nextConnectionId
  let conn : ManagedConnection := { id := id, db := resolved.id, active := true }
  (conn,
    { st1 with
        nextConnectionId := id + 1
        activeConnections := jsRecordSet st1.activeConnections id conn })

/-- `BunDatabaseDriver.#availableConnection`: the first enumerated connection
bound to the database of the spec, if any. The code compares only `conn.db`;
the `active` flag is not consulted. -/
def availableConnection (spec : String) (st : DriverState) : Option ManagedConnection :=
  match st.databasesBySpec.lookup spec with
  | none => none
  | some db =>
      (st.activeConnections.find? fun e => e.2.db = db.id).map fun e => e.2

/-- `BunDatabaseDriver.#validateConnection`: the connection exists and its
`active` flag is set. -/
def validateConnection (id : Nat) (st : DriverState) : Bool :=
  match st.activeConnections.lookup id with
  | none => false
  | some conn => conn.active

/-- The `spec` one-of of a wire `DatabaseConnection`: a token referencing an
existing connection, an inline connect identifier whose string payload may be
missing, or an unrecognized case. -/
inductive ConnSpec
  | token (id : Nat)
  | connectName (identifier : Option String)
  | invalid
  deriving DecidableEq, Repr

/-- `BunDatabaseDriver.#resolveConnection`: dispatch on the connection
one-of. The token path validates, then re-checks existence and activity
(branches unreachable after a successful validation); the connect path maps
the name to a spec, reuses an available connection and otherwise opens one. -/
def resolveConnection (spec : ConnSpec) (st : DriverState) :
    Except JSError (ManagedConnection × DriverState) :=
  match spec with
  | .token id =>
      if validateConnection id st then
        match st.activeConnections.lookup id with
        | none =>
            .error (.connect ("Connection " ++ toString id ++ " not found") codeNotFound)
        | some resolved =>
            if resolved.active then .ok (resolved, st)
            else .error (.connect ("Connection " ++ toString id ++ " is inactive")
              codeFailedPrecondition)
      else
        .error (.connect ("Connection " ++ toString id ++ " is not valid")
          codeFailedPrecondition)
  | .connectName identifier =>
      match identifier with
      | none => .error (.connect "Invalid connection string" codeInvalidArgument)
      | some str =>
          if str = "" then .error (.connect "Invalid connection string" codeInvalidArgument)
          else do
            let spec ← specFromName str
            match availableConnection spec st with
            | some avail => .ok (avail, st)
            | none => .ok (driverConnect spec st)
  | .invalid => .error (.connect "Invalid connection spec" codeInvalidArgument)

/-- The `identifier` one-of of a `DatabaseConnectRequest`: only the `name`
case is handled. -/
inductive ConnectIdentifier
  | name (value : String)
  | other
  deriving DecidableEq, Repr

/-- The `databaseConnect` handler from `BunDatabaseDriver.setup`: map the
name through `specFromName`, open a connection, return its id as the token. -/
def databaseConnect (identifier : ConnectIdentifier) (st : DriverState) :
    Except JSError (Nat × DriverState) :=
  match identifier with
  | .name value => do
      let spec ← specFromName value
      let (conn, st1) := driverConnect spec st
      .ok (conn.id, st1)
  | .other => .error (.connect "Unsupported identifier type" codeUnimplemented)

/-! ## Theorems -/

lemma accessBelow_toNat {a b : DatabaseAccessLevel} (h : AccessBelow a b) :
    a.toNat < b.toNat := by
  cases h <;> decide

/-- The spec-declared total order coincides with the numeric order of the
enum values. -/
lemma specAccessLE_iff (a b : DatabaseAccessLevel) :
    specAccessLE a b ↔ a.toNat ≤ b.toNat := by
  constructor
  · rintro (h | rfl)
    · refine le_of_lt ?_
      induction h with
      | single h => exact accessBelow_toNat h
      | tail _ h ih => exact ih.trans (accessBelow_toNat h)
    · exact le_refl _
  · intro h
    cases a <;> cases b <;>
      first
        | exact Or.inr rfl
        | exact absurd h (by decide)
        | exact Or.inl (Relation.TransGen.single AccessBelow.anon_ro)
        | exact Or.inl (Relation.TransGen.single AccessBelow.ro_rw)
        | exact Or.inl (Relation.TransGen.single AccessBelow.rw_admin)
        | exact Or.inl (Relation.TransGen.tail
            (Relation.TransGen.single AccessBelow.anon_ro) AccessBelow.ro_rw)
        | exact Or.inl (Relation.TransGen.tail
            (Relation.TransGen.single AccessBelow.ro_rw) AccessBelow.rw_admin)
        | exact Or.inl (Relation.TransGen.tail (Relation.TransGen.tail
            (Relation.TransGen.single AccessBelow.anon_ro) AccessBelow.ro_rw)
            AccessBelow.rw_admin)

lemma foldl_mathMax_some (l : List Nat) (a : Nat) :
    l.foldl mathMax (some a) = some (l.foldl max a) := by
  induction l generalizing a with
  | nil => rfl
  | cons x xs ih => simp [List.foldl_cons, mathMax, ih]

/-- A `Math.max` fold over mapped access levels is attained at a list element
and bounds every element. -/
lemma exists_attained (xs : List DatabaseAccessLevel) (a : DatabaseAccessLevel) :
    ∃ r, (r = a ∨ r ∈ xs) ∧
      (xs.map DatabaseAccessLevel.toNat).foldl max a.toNat = r.toNat ∧
      a.toNat ≤ r.toNat ∧ ∀ x ∈ xs, x.toNat ≤ r.toNat := by
  induction xs generalizing a with
  | nil => exact ⟨a, Or.inl rfl, rfl, le_refl _, by simp⟩
  | cons x xs ih =>
    by_cases hax : a.toNat ≤ x.toNat
    · obtain ⟨r, hr, hfold, hle, hall⟩ := ih x
      refine ⟨r, ?_, ?_, hax.trans hle, ?_⟩
      · rcases hr with rfl | hr
        · exact Or.inr (List.mem_cons_self _ _)
        · exact Or.inr (List.mem_cons_of_mem _ hr)
      · simpa [List.map_cons, List.foldl_cons, max_eq_right hax] using hfold
      · intro y hy
        rcases List.mem_cons.mp hy with rfl | hy
        · exact hle
        · exact hall y hy
    · push_neg at hax
      obtain ⟨r, hr, hfold, hle, hall⟩ := ih a
      refine ⟨r, ?_, ?_, hle, ?_⟩
      · rcases hr with rfl | hr
        · exact Or.inl rfl
        · exact Or.inr (List.mem_cons_of_mem _ hr)
      · simpa [List.map_cons, List.foldl_cons, max_eq_left (le_of_lt hax)] using hfold
      · intro y hy
        rcases List.mem_cons.mp hy with rfl | hy
        · exact (le_of_lt hax).trans hle
        · exact hall y hy

/-- C1: for every parsed query (at least one statement) and every access
level L, `checkQueryAccess(query, L)` returns true iff the query's required
access level is below or equal to L, where the required level is the maximum
across its statements of the per-statement mapping DQL to READ_ONLY, DML to
READ_WRITE, DDL to ADMIN, taken under the spec-declared total order
ANONYMOUS < READ_ONLY < READ_WRITE < ADMIN. -/
theorem checkQueryAccess_iff_required_le (q : QueryInfo) (L : DatabaseAccessLevel)
    (h : q.statements ≠ []) :
    ∃ r ∈ q.statements.map fun s => requisiteAccessForQueryType s.type,
      (∀ x ∈ q.statements.map fun s => requisiteAccessForQueryType s.type,
        specAccessLE x r) ∧
      (checkQueryAccess q L = true ↔ specAccessLE r L) := by
  obtain ⟨s, rest, hq⟩ := List.exists_cons_of_ne_nil h
  obtain ⟨r, hr, hfold, hle, hall⟩ :=
    exists_attained (rest.map fun st => requisiteAccessForQueryType st.type)
      (requisiteAccessForQueryType s.type)
  have hmax : maximalAccessLevel q = some r.toNat := by
    have hcomm :
        rest.map (fun st => (requisiteAccessForQueryType st.type).toNat) =
          (rest.map fun st => requisiteAccessForQueryType st.type).map
            DatabaseAccessLevel.toNat := by
      simp [List.map_map, Function.comp]
    simp only [maximalAccessLevel, hq, List.map_cons, List.foldl_cons]
    rw [show mathMax none (requisiteAccessForQueryType s.type).toNat =
      some (requisiteAccessForQueryType s.type).toNat from rfl]
    rw [hcomm, foldl_mathMax_some, hfold]
  refine ⟨r, ?_, ?_, ?_⟩
  · rcases hr with rfl | hr
    · simp [hq]
    · rw [hq, List.map_cons]
      exact List.mem_cons_of_mem _ hr
  · intro x hx
    rw [hq, List.map_cons] at hx
    rcases List.mem_cons.mp hx with rfl | hx
    · exact (specAccessLE_iff _ _).mpr hle
    · exact (specAccessLE_iff _ _).mpr (hall x hx)
  · rw [specAccessLE_iff]
    simp [checkQueryAccess, hmax]

/-- Witness for C1 at the one-statement query `SELECT 1` checked against
READ_ONLY. -/
theorem checkQueryAccess_iff_required_le_witness :
    (QueryInfo.mk [⟨.DQL, "SELECT 1"⟩]).statements ≠ [] ∧
    ∃ r ∈ (QueryInfo.mk [⟨.DQL, "SELECT 1"⟩]).statements.map
        fun s => requisiteAccessForQueryType s.type,
      (∀ x ∈ (QueryInfo.mk [⟨.DQL, "SELECT 1"⟩]).statements.map
          fun s => requisiteAccessForQueryType s.type, specAccessLE x r) ∧
      (checkQueryAccess ⟨[⟨.DQL, "SELECT 1"⟩]⟩ .READ_ONLY = true ↔
        specAccessLE r .READ_ONLY) :=
  ⟨by simp, checkQueryAccess_iff_required_le ⟨[⟨.DQL, "SELECT 1"⟩]⟩ .READ_ONLY (by simp)⟩

/-- C2: with the statement flag set, the observer terminal result is
`Mutation{count}` when the engine exec reports a non-zero change count and
`Empty` when it reports zero; under statement-flag=true the result is never
`Single` or `Rows`. -/
theorem statement_flag_result (s : String) (hs : s ≠ "")
    (engine : EngineBehavior) (cbks : ObserverCallbacks) :
    (∀ n, engine.execResult = .ok n →
      bunApply (some s) true engine cbks =
        .ok ((if n = 0 then .empty else .mutation n),
          { rowEvents := []
            endEvents := cbks.onEndCbks.map fun c =>
              (c, if n = 0 then AnyQueryResult.empty else .mutation n)
            errorEvents := [] })) ∧
    (∀ res log, bunApply (some s) true engine cbks = .ok (res, log) →
      res.mode ≠ .Single ∧ res.mode ≠ .Rows) := by
  constructor
  · intro n hn
    by_cases h0 : n = 0 <;> simp [bunApply, bunApplyTry, hs, hn, h0]
  · intro res log h
    rcases hE : engine.execResult with m | n
    · simp [bunApply, bunApplyTry, hs, hE] at h
      rcases h with ⟨rfl, -⟩
      exact ⟨by simp [AnyQueryResult.mode], by simp [AnyQueryResult.mode]⟩
    · by_cases h0 : n = 0 <;>
        simp [bunApply, bunApplyTry, hs, hE, h0] at h <;>
        rcases h with ⟨rfl, -⟩ <;>
        exact ⟨by simp [AnyQueryResult.mode], by simp [AnyQueryResult.mode]⟩

/-- Witness for C2: a statement-flag query whose exec reports one change
yields `Mutation{1}` and dispatches the registered on-end callback. -/
theorem statement_flag_result_witness :
    ("INSERT INTO t VALUES (1)" ≠ "") ∧
    bunApply (some "INSERT INTO t VALUES (1)") true
        ⟨.ok 1, true, .ok ([], [])⟩ ⟨[], [0], []⟩ =
      .ok (.mutation 1,
        { rowEvents := [], endEvents := [(0, .mutation 1)], errorEvents := [] }) := by
  refine ⟨by decide, ?_⟩
  have h := (statement_flag_result "INSERT INTO t VALUES (1)" (by decide)
    ⟨.ok 1, true, .ok ([], [])⟩ ⟨[], [0], []⟩).1 1 rfl
  simpa using h

/-- The single-detection step holds exactly under the spec conditions: one
column, one row, the sole row property named as the sole column, cell not
undefined. -/
lemma bunDetectSingle_eq_some {cols : List String} {data : List RowObj} {v : Cell} :
    bunDetectSingle cols data = some v ↔
      ∃ k, cols = [k] ∧ data = [[(k, v)]] ∧ v ≠ Cell.undefined := by
  cases cols with
  | nil => simp [bunDetectSingle]
  | cons c cs =>
    cases cs with
    | cons c2 cs2 => simp [bunDetectSingle]
    | nil =>
      cases data with
      | nil => simp [bunDetectSingle]
      | cons row rows =>
        cases rows with
        | cons r2 rs => simp [bunDetectSingle]
        | nil =>
          cases row with
          | nil => simp [bunDetectSingle]
          | cons e es =>
            cases es with
            | cons e2 es2 => simp [bunDetectSingle]
            | nil =>
              obtain ⟨k, w⟩ := e
              by_cases hk : k = c
              · subst hk
                by_cases hu : w = Cell.undefined <;>
                  simp [bunDetectSingle, hu] <;> aesop
              · simp [bunDetectSingle, hk]

/-- C3: with the statement flag unset and a successful engine evaluation, the
observer produces `Single` exactly when the row sequence has length 1, the
column count is 1, the sole row property name equals the sole column name and
the cell is not undefined (the detected value being that cell); every result
of this path is `Single`, `Rows`, or (decode failure only) `Error`. -/
theorem query_flag_single_detection (s : String) (hs : s ≠ "")
    (engine : EngineBehavior) (cbks : ObserverCallbacks)
    (cols : List String) (data : List RowObj)
    (hp : engine.prepareOk = true)
    (ha : engine.allResult = .ok (cols, data)) :
    ∀ res log, bunApply (some s) false engine cbks = .ok (res, log) →
      ((∀ v, res = .single v ↔
          ∃ k, cols = [k] ∧ data = [[(k, v)]] ∧ v ≠ Cell.undefined) ∧
       (res.mode = .Single ∨ res.mode = .Rows ∨ res.mode = .Error)) := by
  intro res log h
  simp [bunApply, bunApplyTry, hs, hp, ha] at h
  rcases hD : bunDetectSingle cols data with - | v0
  · rcases hL : (decodeLoop (columnSpecsOf cols) cbks.onRowCbks 0 data).1 with e | rows
    · simp [hD, hL] at h
      rcases h with ⟨rfl, -⟩
      refine ⟨?_, Or.inr (Or.inr rfl)⟩
      intro v
      simp only [reduceCtorEq, false_iff]
      intro hcond
      have := bunDetectSingle_eq_some.mpr hcond
      rw [hD] at this
      exact Option.noConfusion this
    · simp [hD, hL] at h
      rcases h with ⟨rfl, -⟩
      refine ⟨?_, Or.inr (Or.inl rfl)⟩
      intro v
      simp only [reduceCtorEq, false_iff]
      intro hcond
      have := bunDetectSingle_eq_some.mpr hcond
      rw [hD] at this
      exact Option.noConfusion this
  · simp [hD] at h
    rcases h with ⟨rfl, -⟩
    refine ⟨?_, Or.inl rfl⟩
    intro v
    constructor
    · intro hv
      have hv0 : v0 = v := by
        injection hv
      subst hv0
      exact bunDetectSingle_eq_some.mp hD
    · intro hcond
      have := bunDetectSingle_eq_some.mpr hcond
      rw [hD] at this
      have : v0 = v := Option.some.inj this
      rw [this]

/-- Witness for C3: `SELECT 1` with one column and one matching row yields a
`Single` with the cell value 1. -/
theorem query_flag_single_detection_witness :
    ("SELECT 1" ≠ "") ∧
    (EngineBehavior.mk (.ok 0) true (.ok (["1"], [[("1", Cell.num 1)]]))).prepareOk = true ∧
    ∀ res log,
      bunApply (some "SELECT 1") false
          ⟨.ok 0, true, .ok (["1"], [[("1", Cell.num 1)]])⟩ {} = .ok (res, log) →
      ((∀ v, res = .single v ↔
          ∃ k, ["1"] = [k] ∧ [[("1", Cell.num 1)]] = [[(k, v)]] ∧ v ≠ Cell.undefined) ∧
       (res.mode = .Single ∨ res.mode = .Rows ∨ res.mode = .Error)) :=
  ⟨by decide, rfl,
    query_flag_single_detection "SELECT 1" (by decide)
      ⟨.ok 0, true, .ok (["1"], [[("1", Cell.num 1)]])⟩ {} ["1"] [[("1", Cell.num 1)]]
      rfl rfl⟩

lemma decodeRowValues_length (columns : List ColumnSpec) :
    ∀ (entries : List (Option String × Cell)) (i : Nat) (vs : List DatabaseValue),
      decodeRowValues columns i entries = .ok vs → vs.length = entries.length := by
  intro entries
  induction entries with
  | nil =>
    intro i vs h
    have h2 : (Except.ok [] : Except String (List DatabaseValue)) = .ok vs := h
    rw [← Except.ok.inj h2]
    rfl
  | cons e rest ih =>
    intro i vs h
    obtain ⟨name, value⟩ := e
    simp only [decodeRowValues] at h
    rcases hc : decodeCell
        { index := i,
          name := jsStrOrNone ((jsStrOrNone (Option.bind columns[i]? fun c => c.name)).orElse
            fun _ => name),
          type := some ((Option.bind columns[i]? fun c => c.type).getD .UNSPECIFIED) }
        value with m | v
    · rw [hc] at h
      exact Except.noConfusion h
    · rw [hc] at h
      rcases ht : decodeRowValues columns (i + 1) rest with m | tail
      · rw [ht] at h
        exact Except.noConfusion h
      · rw [ht] at h
        have : (⟨.value v⟩ : DatabaseValue) :: tail = vs := Except.ok.inj h
        rw [← this]
        simp [ih (i + 1) tail ht]

lemma decodeRow_ok {t o : Nat} {row : RowObj} {columns : List ColumnSpec}
    {r : DatabaseRow} (h : decodeRow t o (.obj row) columns = .ok r) :
    r.table = t ∧ r.value.length = row.length := by
  simp only [decodeRow] at h
  rcases hv : decodeRowValues columns 0 (rawRowEntries (.obj row)) with m | vs
  · rw [hv] at h
    exact Except.noConfusion h
  · rw [hv] at h
    have hr : ({ table := t, ordinal := o, value := vs } : DatabaseRow) = r :=
      Except.ok.inj h
    have hlen : vs.length = row.length := by
      have := decodeRowValues_length columns (rawRowEntries (.obj row)) 0 vs hv
      simpa [rawRowEntries] using this
    rw [← hr]
    exact ⟨rfl, hlen⟩

lemma decodeLoop_rows_sourced (columnSpecs : List ColumnSpec) (onRowCbks : List Nat) :
    ∀ (data : List RowObj) (i : Nat) (rows : List DatabaseRow)
      (evs : List (Nat × DatabaseRow)),
      decodeLoop columnSpecs onRowCbks i data = (.ok rows, evs) →
      ∀ r ∈ rows, ∃ row ∈ data, ∃ j, decodeRow 1 j (.obj row) columnSpecs = .ok r := by
  intro data
  induction data with
  | nil =>
    intro i rows evs h r hr
    simp [decodeLoop] at h
    rcases h with ⟨h1, -⟩
    rw [h1] at hr
    exact absurd hr (List.not_mem_nil r)
  | cons row rest ih =>
    intro i rows evs h r hr
    simp only [decodeLoop] at h
    rcases hd : decodeRow 1 i (.obj row) columnSpecs with m | decoded
    · rw [hd] at h
      simp at h
    · rw [hd] at h
      simp only at h
      rcases hn : (decodeLoop columnSpecs onRowCbks (i + 1) rest).1 with e | tail
      · rw [hn] at h
        simp at h
      · rw [hn] at h
        simp at h
        rcases h with ⟨h1, -⟩
        rw [← h1] at hr
        rcases List.mem_cons.mp hr with rfl | hr2
        · exact ⟨row, List.mem_cons_self _ _, i, hd⟩
        · obtain ⟨row2, hrow2, j, hj⟩ := ih (i + 1) tail
            (decodeLoop columnSpecs onRowCbks (i + 1) rest).2
            (by rw [← hn]) r hr2
          exact ⟨row2, List.mem_cons_of_mem _ hrow2, j, hj⟩

lemma mapWithIndex_length (f : Nat → α → β) :
    ∀ (i : Nat) (l : List α), (mapWithIndex f i l).length = l.length := by
  intro i l
  induction l generalizing i with
  | nil => rfl
  | cons a rest ih => simp [mapWithIndex, ih]

/-- C7 counterexample: the claim as stated is false for a query projecting
duplicate column names (`SELECT 1 AS a, 2 AS a`): the engine reports two
column names while the materialized row object collapses to one property, so
the observer produces a Rows result whose sole row carries 1 value against a
2-column table descriptor — `decodeRow` emits one value per row property,
not per column. -/
theorem rows_result_invariants_counterexample :
    bunApply (some "SELECT 1 AS a, 2 AS a") false
        ⟨.ok 0, true, .ok (["a", "a"], [[("a", Cell.num 2)]])⟩ {} =
      .ok (.rows
          [{ name := none, identity := 1,
             column := [{ name := some "a", ordinal := 0, type := .UNSPECIFIED },
                        { name := some "a", ordinal := 1, type := .UNSPECIFIED }] }]
          [{ table := 1, ordinal := 0,
             value := [{ data := .value { kind := .numberValue 2 } }] }],
        { rowEvents := [], endEvents := [], errorEvents := [] }) ∧
    ({ table := 1, ordinal := 0,
       value := [{ data := .value { kind := .numberValue 2 } }] } : DatabaseRow).value.length ≠
      ({ name := none, identity := 1,
         column := [{ name := some "a", ordinal := 0, type := .UNSPECIFIED },
                    { name := some "a", ordinal := 1, type := .UNSPECIFIED }] } :
        DatabaseTable).column.length :=
  ⟨rfl, by decide⟩

/-- C7 (amended): every Rows result of the observer carries exactly one
table descriptor with identity 1 and no name, and every row's table identity
occurs among the result's tables; a row's value count equals the table's
column count exactly under the proviso that the corresponding engine row
objects expose one property per reported column (violated for duplicate
column names, where the row object collapses). -/
theorem rows_result_invariants (s : String) (hs : s ≠ "")
    (engine : EngineBehavior) (cbks : ObserverCallbacks)
    (cols : List String) (data : List RowObj)
    (hp : engine.prepareOk = true)
    (ha : engine.allResult = .ok (cols, data)) :
    ∀ res log tables rows, bunApply (some s) false engine cbks = .ok (res, log) →
      res = .rows tables rows →
      ∃ t, tables = [t] ∧ t.identity = 1 ∧ t.name = none ∧
        (∀ r ∈ rows, r.table ∈ tables.map fun tb => tb.identity) ∧
        ((∀ row ∈ data, row.length = cols.length) →
          ∀ r ∈ rows, r.value.length = t.column.length) := by
  intro res log tables rows h hres
  simp [bunApply, bunApplyTry, hs, hp, ha] at h
  rcases hD : bunDetectSingle cols data with - | v0
  · rcases hL : (decodeLoop (columnSpecsOf cols) cbks.onRowCbks 0 data).1 with e | rows0
    · simp [hD, hL] at h
      rcases h with ⟨h1, -⟩
      rw [hres] at h1
      exact AnyQueryResult.noConfusion h1
    · simp [hD, hL] at h
      rcases h with ⟨h1, -⟩
      rw [hres] at h1
      obtain ⟨htab, hrows⟩ := AnyQueryResult.rows.inj h1.symm
      refine ⟨createTableInfo 1 none (columnSpecsOf cols), htab, rfl, rfl, ?_, ?_⟩
      · intro r hr
        rw [hrows] at hr
        obtain ⟨row, hrow, j, hj⟩ := decodeLoop_rows_sourced (columnSpecsOf cols)
          cbks.onRowCbks data 0 rows0 (decodeLoop (columnSpecsOf cols) cbks.onRowCbks 0 data).2
          (by rw [← hL]) r hr
        obtain ⟨htable, -⟩ := decodeRow_ok hj
        rw [htab]
        simp [createTableInfo, htable]
      · intro hshape r hr
        rw [hrows] at hr
        obtain ⟨row, hrow, j, hj⟩ := decodeLoop_rows_sourced (columnSpecsOf cols)
          cbks.onRowCbks data 0 rows0 (decodeLoop (columnSpecsOf cols) cbks.onRowCbks 0 data).2
          (by rw [← hL]) r hr
        obtain ⟨-, hlen⟩ := decodeRow_ok hj
        rw [hlen, hshape row hrow]
        simp [createTableInfo, columnSpecsOf, mapWithIndex_length]
  · simp [hD] at h
    rcases h with ⟨h1, -⟩
    rw [hres] at h1
    exact AnyQueryResult.noConfusion h1

/-- Witness for the amended C7: a two-column, one-row evaluation produces a
Rows result satisfying the invariants (the row-shape proviso holds here). -/
theorem rows_result_invariants_witness :
    ("SELECT a, b FROM t" ≠ "") ∧
    ∀ res log tables rows,
      bunApply (some "SELECT a, b FROM t") false
          ⟨.ok 0, true, .ok (["a", "b"], [[("a", Cell.num 1), ("b", Cell.str "x")]])⟩ {} =
        .ok (res, log) →
      res = .rows tables rows →
      ∃ t, tables = [t] ∧ t.identity = 1 ∧ t.name = none ∧
        (∀ r ∈ rows, r.table ∈ tables.map fun tb => tb.identity) ∧
        ((∀ row ∈ [[("a", Cell.num 1), ("b", Cell.str "x")]],
            List.length row = (["a", "b"] : List String).length) →
          ∀ r ∈ rows, r.value.length = t.column.length) :=
  ⟨by decide,
    rows_result_invariants "SELECT a, b FROM t" (by decide)
      ⟨.ok 0, true, .ok (["a", "b"], [[("a", Cell.num 1), ("b", Cell.str "x")]])⟩ {}
      ["a", "b"] [[("a", Cell.num 1), ("b", Cell.str "x")]] rfl rfl⟩

/-- The try block of `apply` never returns an Error-mode result: error modes
are only built by the catch path. -/
lemma bunApplyTry_ok_mode (st : Bool) (engine : EngineBehavior)
    (onRowCbks : List Nat) (r : AnyQueryResult) (evs : List (Nat × DatabaseRow))
    (h : bunApplyTry st engine onRowCbks = (.ok r, evs)) : r.mode ≠ .Error := by
  cases st
  · by_cases hp : engine.prepareOk
    · rcases ha : engine.allResult with m | ⟨cols, data⟩
      · simp [bunApplyTry, hp, ha] at h
      · rcases hD : bunDetectSingle cols data with - | v0
        · rcases hL : (decodeLoop (columnSpecsOf cols) onRowCbks 0 data).1 with e | rows0
          · simp [bunApplyTry, hp, ha, hD, hL] at h
          · simp [bunApplyTry, hp, ha, hD, hL] at h
            rcases h with ⟨rfl, -⟩
            simp [AnyQueryResult.mode]
        · simp [bunApplyTry, hp, ha, hD] at h
          rcases h with ⟨rfl, -⟩
          simp [AnyQueryResult.mode]
    · simp [bunApplyTry, hp] at h
  · rcases hE : engine.execResult with m | n
    · simp [bunApplyTry, hE] at h
    · by_cases h0 : n = 0 <;> simp [bunApplyTry, hE, h0] at h <;>
        rcases h with ⟨rfl, -⟩ <;> simp [AnyQueryResult.mode]

/-- C4 (amended): `recv` throws, always with invalid-argument, exactly when
the query string is missing or empty; on an engine or decode failure it
does not throw but dispatches every registered on-error callback with the
error, dispatches no on-end callback, and returns an Error-mode result
carrying the error message and code string. -/
theorem recv_error_handling (spec : Option String) (st : Bool)
    (engine : EngineBehavior) (cbks : ObserverCallbacks) :
    (∀ e, bunApply spec st engine cbks = .error e →
      (spec = none ∨ spec = some "") ∧
      e = .connect "Invalid query" codeInvalidArgument) ∧
    ((spec = none ∨ spec = some "") →
      bunApply spec st engine cbks = .error (.connect "Invalid query" codeInvalidArgument)) ∧
    (∀ res log, bunApply spec st engine cbks = .ok (res, log) →
      ∀ msg code, res = .error msg code →
        ∃ err, msg = err.messageOrString ∧ code = err.codeString ∧
          log.errorEvents = cbks.onErrorCbks.map (fun c => (c, err)) ∧
          log.endEvents = []) ∧
    (∀ s m, spec = some s → s ≠ "" →
      ((st = true → engine.execResult = .error m →
        ∃ res log, bunApply spec st engine cbks = .ok (res, log) ∧ res.mode = .Error) ∧
       (st = false → engine.prepareOk = false →
        ∃ res log, bunApply spec st engine cbks = .ok (res, log) ∧ res.mode = .Error) ∧
       (st = false → engine.prepareOk = true → engine.allResult = .error m →
        ∃ res log, bunApply spec st engine cbks = .ok (res, log) ∧
          res.mode = .Error))) := by
  refine ⟨?_, ?_, ?_, ?_⟩
  · intro e h
    rcases spec with - | s
    · refine ⟨Or.inl rfl, ?_⟩
      have h2 : Except.error (JSError.connect "Invalid query" codeInvalidArgument) =
          (Except.error e : Except JSError (AnyQueryResult × DispatchLog)) := h
      exact (Except.error.inj h2).symm
    · by_cases hs : s = ""
      · subst hs
        refine ⟨Or.inr rfl, ?_⟩
        simp [bunApply] at h
        exact h.symm
      · rcases hT : bunApplyTry st engine cbks.onRowCbks with ⟨tr, evs⟩
        cases tr <;> simp [bunApply, hs, hT] at h
  · rintro (rfl | rfl) <;> simp [bunApply]
  · intro res log h msg code hres
    rcases spec with - | s
    · simp [bunApply] at h
    · by_cases hs : s = ""
      · subst hs
        simp [bunApply] at h
      · rcases hT : bunApplyTry st engine cbks.onRowCbks with ⟨tr, evs⟩
        cases tr with
        | ok result =>
          simp [bunApply, hs, hT] at h
          rcases h with ⟨rfl, -⟩
          have hmode := bunApplyTry_ok_mode st engine cbks.onRowCbks result evs hT
          rw [hres] at hmode
          exact absurd rfl hmode
        | error e =>
          simp [bunApply, hs, hT] at h
          rcases h with ⟨rfl, hlog⟩
          refine ⟨e, ?_, ?_, ?_, ?_⟩
          · exact (AnyQueryResult.error.inj hres.symm).1
          · exact (AnyQueryResult.error.inj hres.symm).2
          · rw [← hlog]
          · rw [← hlog]
  · intro s m hspec hs
    subst hspec
    refine ⟨?_, ?_, ?_⟩
    · rintro rfl hE
      exact ⟨.error (JSError.plain m).messageOrString (JSError.plain m).codeString,
        { rowEvents := [], endEvents := []
          errorEvents := cbks.onErrorCbks.map fun c => (c, JSError.plain m) },
        by simp [bunApply, bunApplyTry, hs, hE], rfl⟩
    · rintro rfl hp
      exact ⟨.error (JSError.connect "Invalid or unsupported query"
          codeInvalidArgument).messageOrString
          (JSError.connect "Invalid or unsupported query" codeInvalidArgument).codeString,
        { rowEvents := [], endEvents := []
          errorEvents := cbks.onErrorCbks.map fun c =>
            (c, JSError.connect "Invalid or unsupported query" codeInvalidArgument) },
        by simp [bunApply, bunApplyTry, hp, hs], rfl⟩
    · rintro rfl hp hE
      exact ⟨.error (JSError.plain m).messageOrString (JSError.plain m).codeString,
        { rowEvents := [], endEvents := []
          errorEvents := cbks.onErrorCbks.map fun c => (c, JSError.plain m) },
        by simp [bunApply, bunApplyTry, hp, hs, hE], rfl⟩

/-- C4 counterexample: the claim as stated is false at a query whose spec is
present and is a string, namely the empty string: `recv` throws
invalid-argument even though no engine or decode failure is involved
(`!queryStr` treats the empty string as falsy). -/
theorem recv_throws_on_present_empty_string :
    bunApply (some "") false ⟨.ok 0, true, .ok ([], [])⟩ {} =
      .error (.connect "Invalid query" codeInvalidArgument) := rfl

/-- Witness for the amended C4: a prepare failure on a non-empty query yields
an Error-mode result (no throw) and fires the registered on-error callback. -/
theorem recv_error_handling_witness :
    ∃ res log,
      bunApply (some "SELECT boom") false ⟨.ok 0, false, .ok ([], [])⟩
          ⟨[], [], [3]⟩ = .ok (res, log) ∧ res.mode = .Error :=
  ((recv_error_handling (some "SELECT boom") false ⟨.ok 0, false, .ok ([], [])⟩
      ⟨[], [], [3]⟩).2.2.2 "SELECT boom" "" rfl (by decide)).2.1 rfl rfl

/-- C10: every `DatabaseQueryResponse` constructed by `buildQueryResponse`
carries `ok = true` in its result envelope; an Error-mode result makes
`buildQueryResponse` throw a ConnectError (default code Unknown) instead of
returning an envelope, so the server never emits an ok=false envelope. -/
theorem buildQueryResponse_ok_flag :
    (∀ r resp, buildQueryResponse r = .ok resp →
      ∀ w, resp.result = some w → w.ok = true) ∧
    (∀ msg code,
      buildQueryResponse (.error msg code) =
        .error (.connect
          ("Query failed: [code=" ++ jsStrOr code "none" ++ "] " ++ jsStrOr msg "no message")
          codeUnknown)) := by
  constructor
  · intro r resp h w hw
    cases r with
    | empty =>
      rcases Except.ok.inj h with rfl
      rcases Option.some.inj hw with rfl
      rfl
    | mutation n =>
      rcases Except.ok.inj h with rfl
      rcases Option.some.inj hw with rfl
      rfl
    | rows tables rows =>
      rcases Except.ok.inj h with rfl
      rcases Option.some.inj hw with rfl
      rfl
    | single v =>
      rcases hv : databaseValueForCell v { index := 0 } with m | dv
      · rw [buildQueryResponse, hv] at h
        exact Except.noConfusion h
      · rw [buildQueryResponse, hv] at h
        rcases Except.ok.inj h with rfl
        rcases Option.some.inj hw with rfl
        rfl
    | error msg code =>
      exact Except.noConfusion h
  · intro msg code
    rfl

/-- Witness for C10 at the Empty result. -/
theorem buildQueryResponse_ok_flag_witness :
    buildQueryResponse .empty = .ok ⟨some ⟨true, some .empty⟩⟩ ∧
    (⟨true, some .empty⟩ : WireDatabaseResult).ok = true :=
  ⟨rfl, buildQueryResponse_ok_flag.1 .empty ⟨some ⟨true, some .empty⟩⟩ rfl
    ⟨true, some .empty⟩ rfl⟩

/-- C6 counterexample: the claim as stated is false for the wire envelope
with ok=false and an unset one-of: the adapter switch never reads `ok`, so
`query()` throws the trailing not-yet-implemented error instead of yielding
an Error-mode result. -/
theorem adapter_query_throws_on_not_ok :
    adapterDecodeQuery ⟨some ⟨false, none⟩⟩ =
      .error "not yet implemented (query client recv): undefined" := rfl

/-- C6 (amended): the adapter decode inverts the server-side encoding for
Empty, Mutation, Rows, and Single envelopes of string and number cells. It
is not a full inverse: the server also emits Single envelopes for a null
cell (encoded through the null branch of `decodeCell`), and the adapter
decodes those to `Single{0}` — the `NullValue` enum value of `kind.value` —
not `Single{null}`. The decode never reads the `ok` flag and never yields an
Error-mode result, and an envelope whose result one-of is unset — which is
how a wire ok=false envelope arrives — makes `query()` throw a
not-yet-implemented error. -/
theorem adapter_decode_inverse :
    (∃ resp, buildQueryResponse .empty = .ok resp ∧
      adapterDecodeQuery resp = .ok .empty) ∧
    (∀ (n : Int), ∃ resp, buildQueryResponse (.mutation n) = .ok resp ∧
      adapterDecodeQuery resp = .ok (.mutation n)) ∧
    (∀ s, ∃ resp, buildQueryResponse (.single (.str s)) = .ok resp ∧
      adapterDecodeQuery resp = .ok (.single (.str s))) ∧
    (∀ (n : Int), ∃ resp, buildQueryResponse (.single (.num n)) = .ok resp ∧
      adapterDecodeQuery resp = .ok (.single (.num n))) ∧
    (∀ tables rows, ∃ resp, buildQueryResponse (.rows tables rows) = .ok resp ∧
      adapterDecodeQuery resp = .ok (.rows tables rows)) ∧
    (∀ env res, adapterDecodeQuery env = .ok res → res.mode ≠ .Error) ∧
    (∀ okFlag, adapterDecodeQuery ⟨some ⟨okFlag, none⟩⟩ =
      .error "not yet implemented (query client recv): undefined") ∧
    (∃ resp, buildQueryResponse (.single Cell.null) = .ok resp ∧
      adapterDecodeQuery resp = .ok (.single (.num 0)) ∧
      adapterDecodeQuery resp ≠ .ok (.single Cell.null)) := by
  refine ⟨⟨_, rfl, rfl⟩, ?_, ?_, ?_, ?_, ?_, ?_,
    ⟨_, rfl, rfl, fun hc => Cell.noConfusion (AnyQueryResult.single.inj (Except.ok.inj hc))⟩⟩
  · intro n
    refine ⟨_, rfl, ?_⟩
    by_cases h0 : n = 0 <;> simp [adapterDecodeQuery, h0]
  · intro s
    exact ⟨_, rfl, rfl⟩
  · intro n
    exact ⟨_, rfl, rfl⟩
  · intro tables rows
    exact ⟨_, rfl, rfl⟩
  · intro env res h
    rcases env with ⟨r⟩
    rcases r with - | ⟨okf, oneof⟩
    · simp [adapterDecodeQuery] at h
    · rcases oneof with - | c
      · simp [adapterDecodeQuery] at h
      · rcases c with - | value | rowsModified | ⟨table, row⟩
        · rcases Except.ok.inj h with rfl
          simp [AnyQueryResult.mode]
        · rcases value with - | ⟨d⟩
          · simp [adapterDecodeQuery] at h
          · rcases d with ⟨kind⟩ | bytes | - | rl
            · rcases kind with - | n | s2 | b <;>
                (rcases Except.ok.inj h with rfl; simp [AnyQueryResult.mode])
            · rcases Except.ok.inj h with rfl
              simp [AnyQueryResult.mode]
            · rcases Except.ok.inj h with rfl
              simp [AnyQueryResult.mode]
            · rcases Except.ok.inj h with rfl
              simp [AnyQueryResult.mode]
        · rcases Except.ok.inj h with rfl
          simp [AnyQueryResult.mode]
        · rcases Except.ok.inj h with rfl
          simp [AnyQueryResult.mode]
  · intro okFlag
    rfl

/-- Witness for the amended C6: the Single string round-trip at "hi". -/
theorem adapter_decode_inverse_witness :
    ∃ resp, buildQueryResponse (.single (.str "hi")) = .ok resp ∧
      adapterDecodeQuery resp = .ok (.single (.str "hi")) :=
  adapter_decode_inverse.2.2.1 "hi"

/-- C9: the name-to-spec mapping accepts exactly `default`, rewriting it to
the in-memory spec; any other name makes `specFromName`, the Connect handler
and inline-spec resolution fail with an invalid-argument ConnectError. -/
theorem specFromName_only_default :
    (∀ n s, specFromName n = .ok s ↔ (n = "default" ∧ s = ":memory:")) ∧
    (∀ n, n ≠ "default" →
      specFromName n =
        .error (.connect "Please use default as the database name" codeInvalidArgument) ∧
      (∀ st, databaseConnect (.name n) st =
        .error (.connect "Please use default as the database name" codeInvalidArgument)) ∧
      (∀ st, ∃ msg, resolveConnection (.connectName (some n)) st =
        .error (.connect msg codeInvalidArgument))) := by
  constructor
  · intro n s
    by_cases hn : n = "default" <;> simp [specFromName, hn, eq_comm]
  · intro n hn
    have h1 : specFromName n =
        .error (.connect "Please use default as the database name" codeInvalidArgument) := by
      simp [specFromName, hn]
    refine ⟨h1, ?_, ?_⟩
    · intro st
      simp only [databaseConnect, h1]
      rfl
    · intro st
      by_cases he : n = ""
      · exact ⟨"Invalid connection string", by simp [resolveConnection, he]⟩
      · refine ⟨"Please use default as the database name", ?_⟩
        simp only [resolveConnection, he, if_neg, h1]
        rfl

/-- Witness for C9 at the unmapped name `elsewhere`. -/
theorem specFromName_only_default_witness :
    ("elsewhere" ≠ "default") ∧
    specFromName "elsewhere" =
      .error (.connect "Please use default as the database name" codeInvalidArgument) :=
  ⟨by decide, (specFromName_only_default.2 "elsewhere" (by decide)).1⟩

lemma jsRecordSet_lookup [DecidableEq α] (l : List (α × β)) (k : α) (v : β) :
    (jsRecordSet l k v).lookup k = some v := by
  induction l with
  | nil => simp [jsRecordSet, List.lookup]
  | cons e rest ih =>
    obtain ⟨k2, v2⟩ := e
    by_cases hk : k2 = k
    · subst hk
      simp [jsRecordSet, List.lookup]
    · have hbeq : (k == k2) = false := by
        rw [beq_eq_false_iff_ne]
        exact fun hc => hk hc.symm
      simp [jsRecordSet, List.lookup, hk, hbeq, ih]

/-- `#connect` issues an active connection registered under its own id. -/
lemma driverConnect_spec (spec : String) (st : DriverState) :
    ∀ conn st2, driverConnect spec st = (conn, st2) →
      conn.active = true ∧ st2.activeConnections.lookup conn.id = some conn := by
  intro conn st2 h
  rcases hdb : st.databasesBySpec.lookup spec with - | db <;>
    simp [driverConnect, driverSpawn, hdb] at h <;>
    rcases h with ⟨rfl, rfl⟩ <;>
    exact ⟨rfl, by simp [jsRecordSet_lookup]⟩

/-- C8: a Query presenting a token that names no connection or an inactive
one fails with FAILED_PRECONDITION; a token newly issued by the Connect
handler is immediately usable: it validates and token-resolution returns its
active connection without changing the registry. -/
theorem connection_token_validity :
    (∀ (st : DriverState) (id : Nat),
      (st.activeConnections.lookup id = none ∨
        (∃ c, st.activeConnections.lookup id = some c ∧ c.active = false)) →
      resolveConnection (.token id) st =
        .error (.connect ("Connection " ++ toString id ++ " is not valid")
          codeFailedPrecondition)) ∧
    (∀ st tok st2, databaseConnect (.name "default") st = .ok (tok, st2) →
      validateConnection tok st2 = true ∧
      ∃ c, resolveConnection (.token tok) st2 = .ok (c, st2) ∧
        c.id = tok ∧ c.active = true) := by
  constructor
  · intro st id hbad
    have hval : validateConnection id st = false := by
      rcases hbad with hnone | ⟨c, hc, hact⟩
      · simp [validateConnection, hnone]
      · simp [validateConnection, hc, hact]
    simp [resolveConnection, hval]
  · intro st tok st2 h
    rcases hDC : driverConnect ":memory:" st with ⟨conn, st1⟩
    simp [databaseConnect, specFromName, Except.bind] at h
    have h2 : Except.ok ((driverConnect ":memory:" st).1.id,
        (driverConnect ":memory:" st).2) = (Except.ok (tok, st2) :
          Except JSError (Nat × DriverState)) := h
    rw [hDC] at h2
    simp at h2
    rcases h2 with ⟨rfl, rfl⟩
    obtain ⟨hact, hlook⟩ := driverConnect_spec ":memory:" st conn st1 hDC
    have hval : validateConnection conn.id st1 = true := by
      simp [validateConnection, hlook, hact]
    refine ⟨hval, conn, ?_, rfl, hact⟩
    simp [resolveConnection, hval, hlook, hact]

/-- Witness for C8: a fresh driver resolving an unknown token 42 fails, and a
token issued by Connect on the fresh state is immediately usable. -/
theorem connection_token_validity_witness :
    resolveConnection (.token 42) {} =
      .error (.connect ("Connection " ++ toString 42 ++ " is not valid")
        codeFailedPrecondition) ∧
    (validateConnection 1
        { nextDbId := 2, nextConnectionId := 2,
          databasesBySpec := [(":memory:", ⟨1⟩)],
          activeDatabases := [(1, ⟨1⟩)],
          activeConnections := [(1, ⟨1, 1, true⟩)] } = true ∧
      ∃ c, resolveConnection (.token 1)
          { nextDbId := 2, nextConnectionId := 2,
            databasesBySpec := [(":memory:", ⟨1⟩)],
            activeDatabases := [(1, ⟨1⟩)],
            activeConnections := [(1, ⟨1, 1, true⟩)] } =
        .ok (c,
          { nextDbId := 2, nextConnectionId := 2,
            databasesBySpec := [(":memory:", ⟨1⟩)],
            activeDatabases := [(1, ⟨1⟩)],
            activeConnections := [(1, ⟨1, 1, true⟩)] }) ∧
        c.id = 1 ∧ c.active = true) :=
  ⟨connection_token_validity.1 {} 42 (Or.inl rfl),
    connection_token_validity.2 {} 1
      { nextDbId := 2, nextConnectionId := 2,
        databasesBySpec := [(":memory:", ⟨1⟩)],
        activeDatabases := [(1, ⟨1⟩)],
        activeConnections := [(1, ⟨1, 1, true⟩)] } rfl⟩

/-- C5: the code violates the claim. At a state where the default database
exists and its only connection is inactive, inline-name resolution returns
that inactive connection and creates nothing: `#availableConnection`
compares only `conn.db` and never consults the `active` flag, contradicting
the `#resolveConnection` doc comment ("an existing connection which remains
in the active state"). -/
theorem inline_resolution_returns_inactive_connection :
    resolveConnection (.connectName (some "default"))
        { nextDbId := 2, nextConnectionId := 2,
          databasesBySpec := [(":memory:", ⟨1⟩)],
          activeDatabases := [(1, ⟨1⟩)],
          activeConnections := [(1, ⟨1, 1, false⟩)] } =
      .ok (⟨1, 1, false⟩,
        { nextDbId := 2, nextConnectionId := 2,
          databasesBySpec := [(":memory:", ⟨1⟩)],
          activeDatabases := [(1, ⟨1⟩)],
          activeConnections := [(1, ⟨1, 1, false⟩)] }) := by
  rfl

end Memdb
